import Mathlib

/-
  Verification development for GitCarrier (src/git_carrier.py), a tkinter
  front end around the external `git` binary for creating, verifying and
  merging git bundles.

  The embedding is shallow: the external process world is an explicit
  environment (`GitEnv`) mapping a git argument list to the behavior of
  `subprocess.run` (either an exception, or a completed result with exit
  code / stdout / stderr), plus an `os.path.isdir` oracle.  Python strings
  are Lean `String`s; where character-level parsing matters (str.split)
  lines are `List Char`.  Python `None` is `Option.none`; Python attribute
  access on `None` (an `AttributeError`) is modelled by an explicit
  `Except` error value.  Each gateway operation also returns the list of
  external processes it successfully spawned, so that "no process spawned"
  is a provable statement.
-/

namespace GitCarrier

/-! ## Character-level string splitting

Embeds Python `str.split(sep)` for a one-character separator: splits on
every occurrence, keeps empty fields, and `"".split(sep) == [""]`. -/

def splitOnChar (sep : Char) : List Char → List (List Char)
  | [] => [[]]
  | c :: cs =>
    match splitOnChar sep cs with
    | [] => [[]]
    | f :: fs => if c = sep then [] :: f :: fs else (c :: f) :: fs

lemma splitOnChar_ne_nil (sep : Char) (l : List Char) : splitOnChar sep l ≠ [] := by
  cases l with
  | nil => simp [splitOnChar]
  | cons c cs =>
    rw [splitOnChar]
    split
    · simp
    · split <;> simp

lemma sep_not_mem_splitOnChar (sep : Char) (l : List Char) :
    ∀ f ∈ splitOnChar sep l, sep ∉ f := by
  induction l with
  | nil =>
    intro f hf
    simp [splitOnChar] at hf
    simp [hf]
  | cons c cs ih =>
    intro f hf
    rw [splitOnChar] at hf
    split at hf
    · rename_i heq
      exact absurd heq (splitOnChar_ne_nil sep cs)
    · rename_i g gs heq
      split at hf
      · rename_i hc
        rcases List.mem_cons.mp hf with rfl | hf2
        · simp
        · exact ih f (by rw [heq]; exact hf2)
      · rename_i hc
        rcases List.mem_cons.mp hf with rfl | hf2
        · intro hmem
          rcases List.mem_cons.mp hmem with hq | hmem2
          · exact hc hq.symm
          · exact ih g (by rw [heq]; exact List.mem_cons_self g gs) hmem2
        · exact ih f (by rw [heq]; exact List.mem_cons_of_mem g hf2)

lemma getD_mem_of_lt {α : Type} (l : List α) (n : Nat) (d : α) (h : n < l.length) :
    l.getD n d ∈ l := by
  induction l generalizing n with
  | nil => simp at h
  | cons a as ih =>
    cases n with
    | zero => simp
    | succ k =>
      simp only [List.getD_cons_succ]
      exact List.mem_cons_of_mem _ (ih k (by simpa using h))

/-! ## External-world model -/

/-- Result of a completed `subprocess.run` call (`text=True`). -/
structure GitResult where
  returncode : Int
  stdout : String
  stderr : String
deriving DecidableEq, Repr

/-- Behavior of `subprocess.run` on a given argument list: either it raises
(tool missing, I/O error) or it returns a completed result. -/
inductive SubprocessBehavior where
  | raises
  | returns (r : GitResult)
deriving DecidableEq, Repr

/-- The external world seen by `GitManager`: what `subprocess.run` does for
each git argument list, and the `os.path.isdir` oracle. -/
structure GitEnv where
  run : List String → SubprocessBehavior
  isdir : String → Bool

/-- A Python exception escaping a gateway method.  `attributeError` models
dereferencing `None` (e.g. `None.returncode`). -/
inductive PyError where
  | attributeError
deriving DecidableEq, Repr

/-! ## GitManager (the Repository Gateway), from src/git_carrier.py -/

structure GitManager where
  repo_path : String
deriving DecidableEq, Repr

/-- `GitManager.run_git`: returns `None` when no repository path is set or
`subprocess.run` raises (the exception is caught and logged), otherwise the
completed result.  The second component is the list of processes actually
spawned (`["git"] + args`, run with `cwd=repo_path`). -/
def run_git (env : GitEnv) (m : GitManager) (args : List String) :
    Option GitResult × List (List String) :=
  if m.repo_path = "" then (none, [])
  else
    match env.run args with
    | .raises => (none, [])
    | .returns r => (some r, [["git"] ++ args])

/-- `GitManager.is_git_repo`: `os.path.isdir(os.path.join(path, ".git"))`
(the path join is written with "/"). -/
def is_git_repo (env : GitEnv) (path : String) : Bool :=
  env.isdir (path ++ "/.git")

/-- `GitManager.set_repo_path`: stores the path and returns True iff the
directory contains a `.git` folder; otherwise leaves state unchanged. -/
def set_repo_path (env : GitEnv) (m : GitManager) (path : String) :
    Bool × GitManager :=
  if is_git_repo env path then (true, { m with repo_path := path })
  else (false, m)

/-- Embedding of Python `str.strip()`: drop leading and trailing
whitespace. -/
def pyStrip (s : String) : String :=
  String.mk (((s.toList.dropWhile Char.isWhitespace).reverse.dropWhile
    Char.isWhitespace).reverse)

/-- `GitManager.get_current_branch`: `res.stdout.strip() if res else ""`. -/
def get_current_branch (env : GitEnv) (m : GitManager) : String :=
  match (run_git env m ["branch", "--show-current"]).1 with
  | some r => pyStrip r.stdout
  | none => ""

/-- `GitManager.get_all_branches`: on a completed zero-exit run, strips and
splits stdout on newlines, dropping blank entries; otherwise `[]`. -/
def get_all_branches (env : GitEnv) (m : GitManager) : List String :=
  match (run_git env m ["branch", "--format=%(refname:short)"]).1 with
  | some r =>
    if r.returncode = 0 then
      ((splitOnChar '\n' (pyStrip r.stdout).toList).map
        (fun l => pyStrip (String.mk l))).filter (fun b => b ≠ "")
    else []
  | none => []

/-- One row produced by `get_commits` (dict with hash/date/author/msg). -/
structure CommitRec where
  hash : List Char
  date : List Char
  author : List Char
  msg : List Char
deriving DecidableEq, Repr

/-- The argument list `get_commits` builds for `git log`. -/
def log_cmd (branch : String) (skip limit : Int) : List String :=
  ["log", branch, "--pretty=format:%h|%ad|%an|%s", "--date=short",
   "-n " ++ toString limit, "--skip=" ++ toString skip]

/-- The per-line body of the `get_commits` loop: split the line on the pipe
delimiter; if it has at least 4 fields, build a record from the first four
fields; otherwise produce nothing. -/
def parseLine (line : List Char) : Option CommitRec :=
  if 4 ≤ (splitOnChar '|' line).length then
    some ⟨(splitOnChar '|' line).getD 0 [], (splitOnChar '|' line).getD 1 [],
      (splitOnChar '|' line).getD 2 [], (splitOnChar '|' line).getD 3 []⟩
  else none

/-- `GitManager.get_commits`: runs `git log` with the pretty format
`%h|%ad|%an|%s`; when the run completed with exit code 0 and non-empty
stdout, parses each newline-separated line, keeping lines with ≥ 4
pipe-separated fields; otherwise `[]`. -/
def get_commits (env : GitEnv) (m : GitManager) (branch : String)
    (skip limit : Int) : List CommitRec :=
  match (run_git env m (log_cmd branch skip limit)).1 with
  | some r =>
    if r.returncode = 0 ∧ r.stdout ≠ "" then
      (splitOnChar '\n' r.stdout.toList).filterMap parseLine
    else []
  | none => []

/-- The revision-range argument built inside `create_bundle`:
`if start_point:` is Python truthiness, so `None` and the empty string both
select the bare branch; a non-empty string selects `start..branch`. -/
def rev_range (start_point : Option String) (branch : String) : String :=
  match start_point with
  | some s => if s = "" then branch else s ++ ".." ++ branch
  | none => branch

/-- `GitManager.create_bundle`: runs `git bundle create out range` and
returns `(res.returncode == 0, res.stderr or res.stdout)`.  When `run_git`
returned `None`, the attribute access `res.returncode` raises. -/
def create_bundle (env : GitEnv) (m : GitManager) (start_point : Option String)
    (branch output_path : String) :
    Except PyError (Bool × String) × List (List String) :=
  match run_git env m ["bundle", "create", output_path, rev_range start_point branch] with
  | (none, procs) => (.error .attributeError, procs)
  | (some r, procs) =>
    (.ok (r.returncode == 0, if r.stderr = "" then r.stdout else r.stderr), procs)

/-- `GitManager.verify_bundle`: runs `git bundle verify path` and returns
`(res.returncode == 0, res.stdout)`; raises on a `None` result. -/
def verify_bundle (env : GitEnv) (m : GitManager) (bundle_path : String) :
    Except PyError (Bool × String) × List (List String) :=
  match run_git env m ["bundle", "verify", bundle_path] with
  | (none, procs) => (.error .attributeError, procs)
  | (some r, procs) => (.ok (r.returncode == 0, r.stdout), procs)

/-- `GitManager.fetch_bundle`: runs `git pull path branch` and returns
`(res.returncode == 0, res.stdout)`; raises on a `None` result. -/
def fetch_bundle (env : GitEnv) (m : GitManager) (bundle_path branch : String) :
    Except PyError (Bool × String) × List (List String) :=
  match run_git env m ["pull", bundle_path, branch] with
  | (none, procs) => (.error .attributeError, procs)
  | (some r, procs) => (.ok (r.returncode == 0, r.stdout), procs)

/-! ## ModernUI (the Interactive Controller), from src/git_carrier.py

Only the state and event logic is embedded; widget layout, status-bar text
and message boxes carry no state relevant to the claims.  Each user event
carries the `GitEnv` in force at that moment (the external world may change
between events). -/

/-- `self.page_size = 15`. -/
def page_size : Int := 15

/-- Controller state: the `GitManager`, the branch combobox text and its
value list, `current_page`, `selected_commit_hash`, the enabled/disabled
state of the two paging buttons, and the commit list of the last completed
fetch (what the table shows), `none` before any fetch completed. -/
structure Ctrl where
  git : GitManager
  branch_combo : String
  combo_values : List String
  current_page : Int
  selected_commit_hash : Option String
  prevEnabled : Bool
  nextEnabled : Bool
  lastFetch : Option (List CommitRec)
deriving Repr

/-- Tail of `ModernUI.load_commits` after the reset step: return when the
combobox is empty, otherwise fetch one page at
`skip = current_page * page_size`, fill the table, and recompute both
button states (`< Newer` enabled iff `current_page > 0`, `Older >` enabled
iff the fetch returned a full page). -/
def loadFetch (env : GitEnv) (s : Ctrl) : Ctrl :=
  if s.branch_combo = "" then s
  else
    let commits := get_commits env s.git s.branch_combo
      (s.current_page * page_size) page_size
    { s with
      lastFetch := some commits,
      prevEnabled := decide (0 < s.current_page),
      nextEnabled := decide ((commits.length : Int) = page_size) }

/-- `ModernUI.load_commits`: returns immediately when no repository is
configured; on `reset_page` zeroes the page and clears the start point;
then the combobox guard and the fetch (`loadFetch`). -/
def load_commits (env : GitEnv) (reset_page : Bool) (s : Ctrl) : Ctrl :=
  if s.git.repo_path = "" then s
  else
    loadFetch env (if reset_page then
      { s with current_page := 0, selected_commit_hash := none } else s)

/-- `ModernUI.prev_page`: only when `current_page > 0`, decrement and
reload. -/
def prev_page (env : GitEnv) (s : Ctrl) : Ctrl :=
  if 0 < s.current_page then
    load_commits env false { s with current_page := s.current_page - 1 }
  else s

/-- `ModernUI.next_page`: increment unconditionally, then reload. -/
def next_page (env : GitEnv) (s : Ctrl) : Ctrl :=
  load_commits env false { s with current_page := s.current_page + 1 }

/-- Combobox selection event: the widget stores the chosen value, then the
bound handler runs `load_commits(reset_page=True)`. -/
def select_branch (env : GitEnv) (b : String) (s : Ctrl) : Ctrl :=
  load_commits env true { s with branch_combo := b }

/-- The combobox value after `ModernUI.refresh_project_info`: the current
branch if it is non-empty and among the listed branches, else the first
listed branch if any, else the previous selection. -/
def refreshedCombo (env : GitEnv) (s : Ctrl) : String :=
  if get_current_branch env s.git ≠ "" ∧
      get_current_branch env s.git ∈ get_all_branches env s.git then
    get_current_branch env s.git
  else if get_all_branches env s.git ≠ [] then
    (get_all_branches env s.git).headD ""
  else s.branch_combo

/-- `ModernUI.refresh_project_info`: returns when no repository is set;
otherwise loads the branch list into the combobox, selects a branch
(`refreshedCombo`), then `load_commits(reset_page=True)`. -/
def refresh_project_info (env : GitEnv) (s : Ctrl) : Ctrl :=
  if s.git.repo_path = "" then s
  else
    load_commits env true
      { s with
        combo_values := get_all_branches env s.git,
        branch_combo := refreshedCombo env s }

/-- `ModernUI.browse_folder` (and, with the same state effect, the startup
`load_settings` path): an empty dialog result is a no-op; a chosen path is
handed to `set_repo_path`; on success the controller refreshes, on failure
only an error box is shown and state is untouched. -/
def browse_folder (env : GitEnv) (path : String) (s : Ctrl) : Ctrl :=
  if path = "" then s
  else if (set_repo_path env s.git path).1 then
    refresh_project_info env { s with git := (set_repo_path env s.git path).2 }
  else s

/-- `ModernUI.on_commit_select` with a selected row: stores that row's hash
as the bundle start point; no gateway call. -/
def on_commit_select (c_hash : String) (s : Ctrl) : Ctrl :=
  { s with selected_commit_hash := some c_hash }

/-- Initial controller state (`ModernUI.__init__` before `load_settings`):
no repository, empty combobox, page 0, no start point; both paging buttons
are created without a state option, i.e. enabled, and no fetch has
completed yet. -/
def initCtrl : Ctrl :=
  { git := { repo_path := "" }, branch_combo := "", combo_values := [],
    current_page := 0, selected_commit_hash := none,
    prevEnabled := true, nextEnabled := true, lastFetch := none }

/-- One user-driven transition.  A paging click requires the corresponding
button to be enabled (a disabled ttk button does not fire its command); a
combobox selection can only pick one of the listed values. -/
inductive Step : Ctrl → Ctrl → Prop
  | browse (s : Ctrl) (env : GitEnv) (path : String) :
      Step s (browse_folder env path s)
  | refresh (s : Ctrl) (env : GitEnv) :
      Step s (refresh_project_info env s)
  | selectBranch (s : Ctrl) (env : GitEnv) (b : String)
      (hb : b ∈ s.combo_values) : Step s (select_branch env b s)
  | prevClick (s : Ctrl) (env : GitEnv) (h : s.prevEnabled = true) :
      Step s (prev_page env s)
  | nextClick (s : Ctrl) (env : GitEnv) (h : s.nextEnabled = true) :
      Step s (next_page env s)
  | commitSelect (s : Ctrl) (c : String) :
      Step s (on_commit_select c s)

/-- Controller states reachable from startup. -/
inductive Reachable : Ctrl → Prop
  | init : Reachable initCtrl
  | step {s t : Ctrl} : Reachable s → Step s t → Reachable t

/-! ## The two bundle handlers, as traces of gateway bundle operations -/

/-- One bundle-related gateway invocation made by a Controller handler
(branch/log queries are not recorded): a `create_bundle` call with its
outcome, a `verify_bundle` call with its outcome, or a `fetch_bundle`
call (the merge) with its file and target branch. -/
inductive GwEvent where
  | createB (filepath : String) (res : Except PyError (Bool × String))
  | verifyB (path : String) (res : Except PyError (Bool × String))
  | mergeB (path branch : String)
deriving Repr

/-- `ModernUI._run_bundle_creation`: create the bundle; if the call raised,
the worker thread dies there; on success verify the artifact (an info or
warning box follows); on failure only an error box is shown.  No merge is
ever issued here. -/
def run_bundle_creation (env : GitEnv) (m : GitManager)
    (start_point : Option String) (filepath branch : String) : List GwEvent :=
  match (create_bundle env m start_point branch filepath).1 with
  | .error e => [.createB filepath (.error e)]
  | .ok (success, msg) =>
    if success then
      [.createB filepath (.ok (success, msg)),
       .verifyB filepath (verify_bundle env m filepath).1]
    else [.createB filepath (.ok (success, msg))]

/-- `ModernUI.apply_bundle_action`: refuses without a repository; an empty
file-dialog result is a no-op; otherwise verifies the chosen bundle (a
raised exception kills the handler there); an invalid bundle aborts with an
error box; a valid one proceeds to `fetch_bundle` into the current branch
only if the user confirms the merge prompt. -/
def apply_bundle_action (env : GitEnv) (m : GitManager) (bundle_file : String)
    (confirm : Bool) : List GwEvent :=
  if m.repo_path = "" then []
  else if bundle_file = "" then []
  else
    match (verify_bundle env m bundle_file).1 with
    | .error e => [.verifyB bundle_file (.error e)]
    | .ok (v_success, v_msg) =>
      if v_success then
        if confirm then
          [.verifyB bundle_file (.ok (v_success, v_msg)),
           .mergeB bundle_file (get_current_branch env m)]
        else [.verifyB bundle_file (.ok (v_success, v_msg))]
      else [.verifyB bundle_file (.ok (v_success, v_msg))]

/-! ## Controller invariant -/

/-- Invariant over reachable controller states: the page index is
non-negative; the combobox never lists an empty branch name; a completed
fetch implies a configured repository and a selected branch; the `Older >`
button is enabled only before any fetch completed or when the last
completed fetch returned a full page; the `< Newer` button is enabled only
before any fetch completed or when the page index is positive. -/
def Inv (s : Ctrl) : Prop :=
  0 ≤ s.current_page ∧
  "" ∉ s.combo_values ∧
  (s.lastFetch ≠ none → s.git.repo_path ≠ "" ∧ s.branch_combo ≠ "") ∧
  (s.nextEnabled = true → s.lastFetch = none ∨
    ∃ l, s.lastFetch = some l ∧ (l.length : Int) = page_size) ∧
  (s.prevEnabled = true → s.lastFetch = none ∨ 0 < s.current_page)

lemma empty_not_mem_branches (env : GitEnv) (m : GitManager) :
    "" ∉ get_all_branches env m := by
  unfold get_all_branches
  split
  · split
    · intro hmem
      rw [List.mem_filter] at hmem
      simp at hmem
    · simp
  · simp

lemma headD_mem {α : Type} (l : List α) (d : α) (h : l ≠ []) : l.headD d ∈ l := by
  cases l with
  | nil => exact absurd rfl h
  | cons a as => simp

lemma refreshedCombo_ne_empty (env : GitEnv) (s : Ctrl)
    (h : s.branch_combo ≠ "") : refreshedCombo env s ≠ "" := by
  unfold refreshedCombo
  split
  · rename_i hc
    exact hc.1
  · split
    · rename_i hc hne
      intro h0
      apply empty_not_mem_branches env s.git
      rw [← h0]
      exact headD_mem _ _ hne
    · exact h

lemma inv_loadFetch (env : GitEnv) (s : Ctrl)
    (h1 : 0 ≤ s.current_page) (h2 : "" ∉ s.combo_values)
    (hrepo : s.git.repo_path ≠ "")
    (h3 : s.lastFetch ≠ none → s.branch_combo ≠ "") :
    Inv (loadFetch env s) := by
  unfold loadFetch
  split
  · rename_i hbr
    have hlf : s.lastFetch = none := by
      by_contra hne
      exact (h3 hne) hbr
    exact ⟨h1, h2, fun hne => (hne hlf).elim,
      fun _ => Or.inl hlf, fun _ => Or.inl hlf⟩
  · rename_i hbr
    refine ⟨h1, h2, fun _ => ⟨hrepo, hbr⟩, ?_, ?_⟩
    · intro hn
      right
      exact ⟨_, rfl, of_decide_eq_true hn⟩
    · intro hp
      right
      exact of_decide_eq_true hp

lemma inv_load (env : GitEnv) (r : Bool) (s : Ctrl)
    (h1 : 0 ≤ s.current_page) (h2 : "" ∉ s.combo_values)
    (h3 : s.lastFetch ≠ none → s.git.repo_path ≠ "" ∧ s.branch_combo ≠ "") :
    Inv (load_commits env r s) := by
  unfold load_commits
  split
  · rename_i hrepo
    have hlf : s.lastFetch = none := by
      by_contra hne
      exact (h3 hne).1 hrepo
    exact ⟨h1, h2, fun hne => (hne hlf).elim,
      fun _ => Or.inl hlf, fun _ => Or.inl hlf⟩
  · rename_i hrepo
    cases r with
    | true =>
      rw [if_pos rfl]
      apply inv_loadFetch
      · show (0 : Int) ≤ 0
        exact le_refl 0
      · exact h2
      · exact hrepo
      · intro hne
        exact (h3 hne).2
    | false =>
      rw [if_neg (by simp)]
      exact inv_loadFetch env s h1 h2 hrepo (fun hne => (h3 hne).2)

lemma inv_refresh (env : GitEnv) (s : Ctrl) (hs : Inv s) :
    Inv (refresh_project_info env s) := by
  unfold refresh_project_info
  split
  · exact hs
  · rename_i hrepo
    apply inv_load
    · exact hs.1
    · exact empty_not_mem_branches env s.git
    · intro hne
      exact ⟨hrepo, refreshedCombo_ne_empty env s ((hs.2.2.1 hne).2)⟩

lemma inv_step {s t : Ctrl} (hs : Inv s) (st : Step s t) : Inv t := by
  cases st with
  | browse env path =>
    by_cases hp : path = ""
    · simpa [browse_folder, hp] using hs
    · by_cases hg : is_git_repo env path
      · have hb : browse_folder env path s =
            refresh_project_info env { s with git := { repo_path := path } } := by
          simp [browse_folder, hp, set_repo_path, hg]
        rw [hb]
        apply inv_refresh
        refine ⟨hs.1, hs.2.1, ?_, hs.2.2.2.1, hs.2.2.2.2⟩
        intro hne
        exact ⟨hp, (hs.2.2.1 hne).2⟩
      · simpa [browse_folder, hp, set_repo_path, hg] using hs
  | refresh env => exact inv_refresh env s hs
  | selectBranch env b hb =>
    unfold select_branch
    apply inv_load
    · exact hs.1
    · exact hs.2.1
    · intro hne
      refine ⟨(hs.2.2.1 hne).1, ?_⟩
      intro hb0
      exact hs.2.1 (hb0 ▸ hb)
  | prevClick env h =>
    unfold prev_page
    split
    · rename_i hpos
      apply inv_load
      · show 0 ≤ s.current_page - 1
        omega
      · exact hs.2.1
      · exact hs.2.2.1
    · exact hs
  | nextClick env h =>
    unfold next_page
    apply inv_load
    · show 0 ≤ s.current_page + 1
      have := hs.1
      omega
    · exact hs.2.1
    · exact hs.2.2.1
  | commitSelect c =>
    unfold on_commit_select
    exact ⟨hs.1, hs.2.1, hs.2.2.1, hs.2.2.2.1, hs.2.2.2.2⟩

lemma inv_reachable {s : Ctrl} (h : Reachable s) : Inv s := by
  induction h with
  | init =>
    exact ⟨le_refl 0, by simp [initCtrl], fun hne => (hne rfl).elim,
      fun _ => Or.inl rfl, fun _ => Or.inl rfl⟩
  | step hr st ih => exact inv_step ih st

/-! ## Concrete environments and states used in closed statements -/

/-- Environment in which every git invocation succeeds with exit code 0,
stdout "ok", empty stderr, and every directory exists. -/
def envOk : GitEnv := ⟨fun _ => .returns ⟨0, "ok", ""⟩, fun _ => true⟩

/-- Environment in which `subprocess.run` always raises. -/
def envRaises : GitEnv := ⟨fun _ => .raises, fun _ => false⟩

/-- Environment in which every git invocation fails (exit code 1) with
empty stdout and a diagnostic only on stderr. -/
def envFailSilent : GitEnv :=
  ⟨fun _ => .returns ⟨1, "", "error: bundle is bad"⟩, fun _ => false⟩

/-- Environment whose git invocations emit one well-formed log line. -/
def envLog : GitEnv :=
  ⟨fun _ => .returns ⟨0, "aa|2024-01-01|an|msg", ""⟩, fun _ => false⟩

/-- A configured gateway. -/
def mRepo : GitManager := ⟨"/repo"⟩

/-- A gateway with no repository path set. -/
def mUnset : GitManager := ⟨""⟩

/-! ## Helper lemmas about run_git -/

lemma run_git_unset (env : GitEnv) (args : List String) :
    run_git env mUnset args = (none, []) := by
  simp [run_git, mUnset]

lemma run_git_raises (m : GitManager) (args : List String) :
    run_git envRaises m args = (none, []) := by
  unfold run_git envRaises
  split <;> rfl

lemma run_git_spawn (env : GitEnv) (m : GitManager) (args : List String) :
    (run_git env m args).2 = [] ∨ (run_git env m args).2 = [["git"] ++ args] := by
  unfold run_git
  split
  · exact Or.inl rfl
  · split
    · exact Or.inl rfl
    · exact Or.inr rfl

lemma create_bundle_spawn (env : GitEnv) (m : GitManager) (sp : Option String)
    (br out : String) :
    (create_bundle env m sp br out).2 =
      (run_git env m ["bundle", "create", out, rev_range sp br]).2 := by
  unfold create_bundle
  split <;> (rename_i heq; rw [heq])

/-! ## Claim theorems -/

/-- Claim C2 (code_bug): with the repository path unset, or when
`subprocess.run` raises, `create_bundle`, `verify_bundle` and
`fetch_bundle` spawn no process (empty spawn list) and write no file, but
instead of returning a null/failure result they dereference the `None`
returned by `run_git` and propagate an `AttributeError` to the caller —
contradicting the gateway's own error policy (its `run_git` catches the
exception precisely to return `None`, and `get_current_branch` and
`get_all_branches` guard that `None`). -/
theorem c2_bundle_ops_raise_on_null (env : GitEnv) (m : GitManager)
    (sp : Option String) (br out : String) :
    create_bundle env mUnset sp br out = (.error .attributeError, []) ∧
    verify_bundle env mUnset out = (.error .attributeError, []) ∧
    fetch_bundle env mUnset out br = (.error .attributeError, []) ∧
    create_bundle envRaises m sp br out = (.error .attributeError, []) ∧
    verify_bundle envRaises m out = (.error .attributeError, []) ∧
    fetch_bundle envRaises m out br = (.error .attributeError, []) := by
  refine ⟨?_, ?_, ?_, ?_, ?_, ?_⟩ <;>
    simp [create_bundle, verify_bundle, fetch_bundle, run_git_unset, run_git_raises]

/-- Claim C3, counterexample: `create_bundle` receives the Python-truthiness
test `if start_point:`, so a present-but-empty start point produces the
bare branch argument, not the exclusive range the claim requires for every
present start point. -/
theorem c3_counterexample :
    rev_range (some "") "main" = "main" ∧
    (create_bundle envOk mRepo (some "") "main" "out.bundle").2 =
      [["git", "bundle", "create", "out.bundle", "main"]] ∧
    rev_range (some "") "main" ≠ "" ++ ".." ++ "main" := by
  exact ⟨rfl, rfl, by decide⟩

/-- Claim C3, amended: `create_bundle` passes the tool exactly one
revision-range argument (the fourth argument of the single spawned
process); that argument is the branch name alone when `start_point` is
`None` or the empty string, and the exclusive range `start..branch` when
`start_point` is a non-empty string. -/
theorem c3_one_rev_range_argument (env : GitEnv) (m : GitManager)
    (sp : Option String) (br out : String) :
    ((create_bundle env m sp br out).2 = [] ∨
      (create_bundle env m sp br out).2 =
        [["git", "bundle", "create", out, rev_range sp br]]) ∧
    rev_range none br = br ∧
    rev_range (some "") br = br ∧
    ∀ s, s ≠ "" → rev_range (some s) br = s ++ ".." ++ br := by
  refine ⟨?_, rfl, by simp [rev_range], fun s hs => by simp [rev_range, hs]⟩
  rw [create_bundle_spawn]
  exact run_git_spawn env m _

/-- Witness for C3 amended at a non-empty start point. -/
theorem c3_one_rev_range_argument_witness :
    rev_range (some "abc") "main" = "abc" ++ ".." ++ "main" ∧
    (create_bundle envOk mRepo (some "abc") "main" "o.bundle").2 =
      [["git", "bundle", "create", "o.bundle", "abc..main"]] := by
  refine ⟨(c3_one_rev_range_argument envOk mRepo (some "abc") "main" "o.bundle").2.2.2
    "abc" (by decide), ?_⟩
  rcases (c3_one_rev_range_argument envOk mRepo (some "abc") "main" "o.bundle").1 with h | h
  · exact absurd h (by decide)
  · rw [h]
    rfl

/-- Claim C4: `set_repo_path` returns true exactly when the chosen path
contains a `.git` directory; on true the stored repository path becomes the
chosen path (retargeting every later `run_git`); on false the gateway state
is unchanged. -/
theorem c4_set_repo_path (env : GitEnv) (m : GitManager) (path : String) :
    ((set_repo_path env m path).1 = true ↔ env.isdir (path ++ "/.git") = true) ∧
    ((set_repo_path env m path).1 = true →
      (set_repo_path env m path).2.repo_path = path) ∧
    ((set_repo_path env m path).1 = false → (set_repo_path env m path).2 = m) := by
  unfold set_repo_path is_git_repo
  split
  · rename_i h
    exact ⟨⟨fun _ => h, fun _ => rfl⟩, fun _ => rfl, fun hf => Bool.noConfusion hf⟩
  · rename_i h
    exact ⟨iff_of_false (by simp) h, fun hf => Bool.noConfusion hf, fun _ => rfl⟩

/-- Witness for C4: a succeeding and a failing configuration attempt. -/
theorem c4_set_repo_path_witness :
    ((set_repo_path envOk mUnset "/r").1 = true ↔
      envOk.isdir ("/r" ++ "/.git") = true) ∧
    (set_repo_path envOk mUnset "/r").2.repo_path = "/r" ∧
    (set_repo_path envRaises mRepo "/r").2 = mRepo := by
  exact ⟨(c4_set_repo_path envOk mUnset "/r").1,
    (c4_set_repo_path envOk mUnset "/r").2.1 (by decide),
    (c4_set_repo_path envRaises mRepo "/r").2.2 (by decide)⟩

/-- Claim C5: `get_commits` is a function of the tool's response to the one
`git log` command it builds — identical responses give identical sequences
— and, whenever the tool honours `-n limit` by emitting at most `limit`
output lines, the parsed list has at most `limit` entries (each output line
yields at most one record). -/
theorem c5_get_commits_bounded_deterministic (env1 env2 : GitEnv)
    (m : GitManager) (branch : String) (skip limit : Int) :
    (env1.run (log_cmd branch skip limit) = env2.run (log_cmd branch skip limit) →
      get_commits env1 m branch skip limit = get_commits env2 m branch skip limit) ∧
    ∀ r, env1.run (log_cmd branch skip limit) = .returns r →
      (splitOnChar '\n' r.stdout.toList).length ≤ limit.toNat →
      (get_commits env1 m branch skip limit).length ≤ limit.toNat := by
  constructor
  · intro h
    unfold get_commits run_git
    rw [h]
  · intro r hr hlines
    by_cases hrepo : m.repo_path = ""
    · simp [get_commits, run_git, hrepo]
    · simp only [get_commits, run_git, if_neg hrepo, hr]
      split
      · exact le_trans (List.length_filterMap_le _ _) hlines
      · simp

/-- Witness for C5 at a one-line tool response with limit 1. -/
theorem c5_get_commits_witness :
    get_commits envLog mRepo "main" 0 1 = get_commits envLog mRepo "main" 0 1 ∧
    (get_commits envLog mRepo "main" 0 1).length ≤ (1 : Int).toNat := by
  refine ⟨(c5_get_commits_bounded_deterministic envLog envLog mRepo "main" 0 1).1 rfl, ?_⟩
  exact (c5_get_commits_bounded_deterministic envLog envLog mRepo "main" 0 1).2
    ⟨0, "aa|2024-01-01|an|msg", ""⟩ rfl (by decide)

/-- Claim C8: `get_current_branch` returns the empty string whenever no
repository is configured or the tool invocation raised (it guards the
`None` from `run_git`, so no exception escapes), and otherwise returns the
trimmed stdout of `git branch --show-current`, i.e. the active branch
name. -/
theorem c8_get_current_branch (env : GitEnv) (m : GitManager) :
    (m.repo_path = "" → get_current_branch env m = "") ∧
    (env.run ["branch", "--show-current"] = .raises →
      get_current_branch env m = "") ∧
    ∀ r, m.repo_path ≠ "" → env.run ["branch", "--show-current"] = .returns r →
      get_current_branch env m = pyStrip r.stdout := by
  refine ⟨?_, ?_, ?_⟩
  · intro h
    simp [get_current_branch, run_git, h]
  · intro h
    by_cases hrepo : m.repo_path = ""
    · simp [get_current_branch, run_git, hrepo]
    · simp [get_current_branch, run_git, hrepo, h]
  · intro r hrepo h
    simp [get_current_branch, run_git, hrepo, h]

/-- Witness for C8: unset repository, raising tool, and a clean query. -/
theorem c8_get_current_branch_witness :
    get_current_branch envOk mUnset = "" ∧
    get_current_branch envRaises mRepo = "" ∧
    get_current_branch envOk mRepo = "ok" := by
  refine ⟨(c8_get_current_branch envOk mUnset).1 rfl,
    (c8_get_current_branch envRaises mRepo).2.1 rfl, ?_⟩
  exact ((c8_get_current_branch envOk mRepo).2.2 ⟨0, "ok", ""⟩ (by decide) rfl).trans
    (by decide)

/-- Claim C9: a log output line yields a commit record exactly when it
splits into at least 4 pipe-separated fields; the stored subject is exactly
the fourth field, hence never contains the pipe delimiter (a subject
containing one is truncated at it); lines with fewer fields are silently
dropped, and `get_commits` is precisely this per-line parse over the
tool's stdout on a clean run. -/
theorem c9_line_parsing (line : List Char) :
    ((parseLine line).isSome ↔ 4 ≤ (splitOnChar '|' line).length) ∧
    (∀ c, parseLine line = some c →
      c.msg = (splitOnChar '|' line).getD 3 [] ∧ '|' ∉ c.msg) ∧
    (∀ env m b sk li r, m.repo_path ≠ "" →
      env.run (log_cmd b sk li) = .returns r →
      r.returncode = 0 → r.stdout ≠ "" →
      get_commits env m b sk li =
        (splitOnChar '\n' r.stdout.toList).filterMap parseLine) ∧
    parseLine ("h7|2024-01-02|an|fix: a|tail".toList) =
      some ⟨"h7".toList, "2024-01-02".toList, "an".toList, "fix: a".toList⟩ := by
  refine ⟨?_, ?_, ?_, by decide⟩
  · unfold parseLine
    split
    · rename_i h
      simpa using h
    · rename_i h
      simpa using h
  · intro c hc
    unfold parseLine at hc
    split at hc
    · rename_i h4
      have he := Option.some.inj hc
      subst he
      refine ⟨rfl, ?_⟩
      apply sep_not_mem_splitOnChar '|' line
      exact getD_mem_of_lt _ 3 [] (by omega)
    · exact absurd hc (by simp)
  · intro env m b sk li r h1 h2 h3 h4
    simp [get_commits, run_git, h1, h2, h3, h4]

/-- Witness for C9 at a well-formed line and a clean one-line response. -/
theorem c9_line_parsing_witness :
    ((parseLine ("a|b|c|d".toList)).isSome ↔
      4 ≤ (splitOnChar '|' ("a|b|c|d".toList)).length) ∧
    get_commits envLog mRepo "main" 0 1 =
      (splitOnChar '\n' ("aa|2024-01-01|an|msg".toList)).filterMap parseLine := by
  refine ⟨(c9_line_parsing ("a|b|c|d".toList)).1, ?_⟩
  exact (c9_line_parsing ("a|b|c|d".toList)).2.2.1 envLog mRepo "main" 0 1
    ⟨0, "aa|2024-01-01|an|msg", ""⟩ (by decide) rfl rfl (by decide)

/-- Claim C10: the message surfaced by `verify_bundle` and by
`fetch_bundle` is the tool's stdout alone (stderr is discarded), so a
failing verification whose diagnostic went to stderr surfaces an empty
message; only `create_bundle` falls back from stderr to stdout. -/
theorem c10_message_streams (env : GitEnv) (m : GitManager)
    (path branch : String) (r : GitResult) :
    (m.repo_path ≠ "" → env.run ["bundle", "verify", path] = .returns r →
      (verify_bundle env m path).1 = .ok (r.returncode == 0, r.stdout)) ∧
    (m.repo_path ≠ "" → env.run ["pull", path, branch] = .returns r →
      (fetch_bundle env m path branch).1 = .ok (r.returncode == 0, r.stdout)) ∧
    (∀ sp out, m.repo_path ≠ "" →
      env.run ["bundle", "create", out, rev_range sp branch] = .returns r →
      (create_bundle env m sp branch out).1 =
        .ok (r.returncode == 0, if r.stderr = "" then r.stdout else r.stderr)) ∧
    (verify_bundle envFailSilent mRepo "b.bundle").1 = .ok (false, "") := by
  refine ⟨?_, ?_, ?_, rfl⟩
  · intro h1 h2
    simp [verify_bundle, run_git, h1, h2]
  · intro h1 h2
    simp [fetch_bundle, run_git, h1, h2]
  · intro sp out h1 h2
    simp [create_bundle, run_git, h1, h2]

/-- Witness for C10: clean verify, pull and create calls. -/
theorem c10_message_streams_witness :
    (verify_bundle envOk mRepo "b.bundle").1 = .ok ((0 : Int) == 0, "ok") ∧
    (fetch_bundle envOk mRepo "b.bundle" "main").1 = .ok ((0 : Int) == 0, "ok") ∧
    (create_bundle envOk mRepo none "main" "o.bundle").1 =
      .ok ((0 : Int) == 0, if "" = "" then "ok" else ("" : String)) := by
  have h := c10_message_streams envOk mRepo "b.bundle" "main" ⟨0, "ok", ""⟩
  exact ⟨h.1 (by decide) rfl, h.2.1 (by decide) rfl, h.2.2.1 none "o.bundle" (by decide) rfl⟩

/-- Claim C1: `_run_bundle_creation` never issues a merge and, after every
successful creation, immediately verifies the created file; in
`apply_bundle_action` — the only handler that calls `fetch_bundle` — a
merge event on a file is always the immediate successor of a verification
of that same file returning valid, whatever the environment, chosen file
and confirmation answer. -/
theorem c1_verify_gates_merge (env : GitEnv) (m : GitManager)
    (sp : Option String) (fp br bf : String) (confirm : Bool) :
    (∀ p b, GwEvent.mergeB p b ∉ run_bundle_creation env m sp fp br) ∧
    (∀ msg, (create_bundle env m sp br fp).1 = .ok (true, msg) →
      run_bundle_creation env m sp fp br =
        [.createB fp (.ok (true, msg)),
         .verifyB fp (verify_bundle env m fp).1]) ∧
    (∀ p b, GwEvent.mergeB p b ∈ apply_bundle_action env m bf confirm →
      ∃ msg, apply_bundle_action env m bf confirm =
        [.verifyB p (.ok (true, msg)), .mergeB p b]) := by
  refine ⟨?_, ?_, ?_⟩
  · intro p b
    unfold run_bundle_creation
    split
    · simp
    · split
      · simp
      · simp
  · intro msg hc
    unfold run_bundle_creation
    rw [hc]
    simp
  · intro p b hmem
    by_cases h1 : m.repo_path = ""
    · simp [apply_bundle_action, h1] at hmem
    · by_cases h2 : bf = ""
      · simp [apply_bundle_action, h1, h2] at hmem
      · cases hv : (verify_bundle env m bf).1 with
        | error e => simp [apply_bundle_action, h1, h2, hv] at hmem
        | ok pr =>
          rcases pr with ⟨vs, vmsg⟩
          cases vs with
          | false => simp [apply_bundle_action, h1, h2, hv] at hmem
          | true =>
            cases confirm with
            | false => simp [apply_bundle_action, h1, h2, hv] at hmem
            | true =>
              simp [apply_bundle_action, h1, h2, hv] at hmem
              rcases hmem with ⟨rfl, rfl⟩
              exact ⟨vmsg, by simp [apply_bundle_action, h1, h2, hv]⟩

/-- Witness for C1: a successful creation is verified immediately, and a
confirmed merge of a valid bundle is immediately preceded by its
verification. -/
theorem c1_verify_gates_merge_witness :
    run_bundle_creation envOk mRepo none "f.bundle" "main" =
      [.createB "f.bundle" (.ok (true, "ok")),
       .verifyB "f.bundle" (verify_bundle envOk mRepo "f.bundle").1] ∧
    ∃ msg, apply_bundle_action envOk mRepo "b.bundle" true =
      [.verifyB "b.bundle" (.ok (true, msg)),
       .mergeB "b.bundle" (get_current_branch envOk mRepo)] := by
  constructor
  · exact (c1_verify_gates_merge envOk mRepo none "f.bundle" "main"
      "b.bundle" true).2.1 "ok" rfl
  · exact (c1_verify_gates_merge envOk mRepo none "f.bundle" "main"
      "b.bundle" true).2.2 "b.bundle" (get_current_branch envOk mRepo)
      (List.mem_cons_of_mem _ (List.mem_cons_self _ _))

/-- Claim C6, counterexample: in the initial controller state — reachable,
at page offset 0, with no fetch ever completed — both paging buttons are
enabled (they are created without a state option), so the forward-paging
transition is permitted and increments the page although no fetch has
returned a full page, and the backward-paging button is not disabled at
offset 0. -/
theorem c6_counterexample :
    Reachable initCtrl ∧
    initCtrl.current_page = 0 ∧
    initCtrl.lastFetch = none ∧
    initCtrl.nextEnabled = true ∧
    initCtrl.prevEnabled = true ∧
    Reachable (next_page envRaises initCtrl) ∧
    (next_page envRaises initCtrl).current_page = 1 ∧
    (next_page envRaises initCtrl).lastFetch = none := by
  refine ⟨Reachable.init, rfl, rfl, rfl, rfl,
    Reachable.step Reachable.init (Step.nextClick initCtrl envRaises rfl),
    ?_, rfl⟩
  decide

/-- Claim C6, amended: in every reachable controller state the page offset
`current_page * page_size` is a non-negative multiple of the page size; it
starts at 0; a backward-paging click at offset 0 is a no-op (the handler
guards `current_page > 0`); and once any fetch has completed, the forward
button is enabled only if the last completed fetch returned a full page and
the backward button only at a positive offset — before any completed fetch
(no repository or no branch yet) both buttons remain in their initial
enabled state. -/
theorem c6_page_offset_invariant :
    initCtrl.current_page = 0 ∧
    ∀ s : Ctrl, Reachable s →
      0 ≤ s.current_page ∧
      page_size ∣ s.current_page * page_size ∧
      (s.current_page = 0 → ∀ env, prev_page env s = s) ∧
      (s.nextEnabled = true → s.lastFetch = none ∨
        ∃ l, s.lastFetch = some l ∧ (l.length : Int) = page_size) ∧
      (s.prevEnabled = true → s.lastFetch = none ∨ 0 < s.current_page) := by
  refine ⟨rfl, fun s hs => ?_⟩
  have hi := inv_reachable hs
  refine ⟨hi.1, dvd_mul_left _ _, ?_, hi.2.2.2.1, hi.2.2.2.2⟩
  intro h0 env
  unfold prev_page
  rw [h0]
  simp

/-- Witness for C6 amended, at the initial state. -/
theorem c6_page_offset_invariant_witness :
    0 ≤ initCtrl.current_page ∧ prev_page envOk initCtrl = initCtrl := by
  have h := c6_page_offset_invariant.2 initCtrl Reachable.init
  exact ⟨h.1, h.2.2.1 rfl envOk⟩

/-- Fields of `load_commits` with `reset_page=True` on a configured
repository: the page index is zeroed and the start point cleared whether
or not the combobox guard then aborts the fetch. -/
lemma load_reset_fields (env : GitEnv) (s : Ctrl)
    (hrepo : s.git.repo_path ≠ "") :
    (load_commits env true s).current_page = 0 ∧
    (load_commits env true s).selected_commit_hash = none := by
  unfold load_commits
  rw [if_neg hrepo, if_pos rfl]
  unfold loadFetch
  dsimp only
  by_cases hb : s.branch_combo = ""
  · rw [if_pos hb]
    exact ⟨rfl, rfl⟩
  · rw [if_neg hb]
    exact ⟨rfl, rfl⟩

/-- Claim C7: the select-branch transition on a configured repository
resets the page to 0 and clears the start point, and (for a non-empty
branch) the fetch it completes is the first page (skip 0) of the newly
selected branch; selecting a new valid repository folder likewise leaves
the controller at page 0 with no start point. -/
theorem c7_reset_on_selection (env : GitEnv) (s : Ctrl) (b path : String) :
    (s.git.repo_path ≠ "" →
      (select_branch env b s).current_page = 0 ∧
      (select_branch env b s).selected_commit_hash = none ∧
      (b ≠ "" → (select_branch env b s).lastFetch =
        some (get_commits env s.git b 0 page_size))) ∧
    (path ≠ "" → is_git_repo env path = true →
      (browse_folder env path s).current_page = 0 ∧
      (browse_folder env path s).selected_commit_hash = none) := by
  constructor
  · intro hrepo
    unfold select_branch load_commits
    dsimp only
    rw [if_neg hrepo, if_pos rfl]
    unfold loadFetch
    dsimp only
    by_cases hb : b = ""
    · rw [if_pos hb]
      exact ⟨rfl, rfl, fun hb2 => absurd hb hb2⟩
    · rw [if_neg hb]
      refine ⟨rfl, rfl, fun _ => ?_⟩
      show some (get_commits env s.git b (0 * page_size) page_size) = _
      rw [zero_mul]
  · intro hp hg
    have h2 : browse_folder env path s =
        refresh_project_info env { s with git := { repo_path := path } } := by
      simp [browse_folder, hp, set_repo_path, hg]
    rw [h2]
    unfold refresh_project_info
    rw [if_neg hp]
    exact load_reset_fields env _ hp

/-- Witness for C7: a branch selection on a configured controller and a
repository selection from the initial state. -/
theorem c7_reset_on_selection_witness :
    (select_branch envOk "main" { initCtrl with git := mRepo }).current_page = 0 ∧
    (select_branch envOk "main" { initCtrl with git := mRepo }).selected_commit_hash
      = none ∧
    (select_branch envOk "main" { initCtrl with git := mRepo }).lastFetch =
      some (get_commits envOk mRepo "main" 0 page_size) ∧
    (browse_folder envOk "/repo" initCtrl).current_page = 0 ∧
    (browse_folder envOk "/repo" initCtrl).selected_commit_hash = none := by
  have h1 := (c7_reset_on_selection envOk { initCtrl with git := mRepo }
    "main" "/repo").1 (by decide)
  have h2 := (c7_reset_on_selection envOk initCtrl "main" "/repo").2
    (by decide) (by decide)
  exact ⟨h1.1, h1.2.1, h1.2.2 (by decide), h2.1, h2.2⟩

end GitCarrier
